import Mathlib

/-!
Verification of the medication-homologation engine
(`services/training_service.py` and `services/encoding_service.py`).

The embedding models one row of the reference table as `Medicamento`,
the label encoding of `crear_encoding_critico` as `vocabulario`/`etiqueta`,
the primary ATC+VÍA combo index of `clustering_por_combo_critico` as
`comboKeys`, the similarity scorer `calcular_score_similitud` as
`calcularScore`, and the query entry point `recomendar_homologos` as
`recomendar`.  Numeric quantities and scores are rationals (the Python
code computes with machine floats; the rational model is the idealised
real-number reading of the same formulas).  Python's stable `list.sort`
is modelled by sorting index-decorated entries with a total
lexicographic order (`ordenRec`).
-/

namespace IAMed

attribute [local semireducible] Rat.mul Rat.add Rat.sub Rat.inv

/-- One row of the reference medication table: the columns consumed by the
recommendation engine.  `valido` is the derived validity flag (`VALIDO == 1`);
`cantidad` is `none` when the `CANTIDAD` field is absent (the code reads it
with `.get('CANTIDAD', 0)`). -/
structure Medicamento where
  cum : String
  producto : String
  atc : String
  via : String
  principio : String
  forma : String
  cantidad : Option ℚ
  unidad : String
  valido : Bool
deriving DecidableEq, Repr

/-! ### Label encoding (`crear_encoding_critico`) -/

/-- The frozen vocabulary of a categorical column: the distinct values across
ALL records, in ascending (lexicographic) order.  Mirrors
`sorted(valores_unicos)` over `df.select(col.unique())`. -/
def vocabulario (vals : List String) : List String :=
  List.insertionSort (· ≤ ·) vals.dedup

/-- The integer label of a value: its index in the sorted vocabulary, with the
`label_map.get(x, -1)` fallback for values outside the vocabulary. -/
def etiqueta (vals : List String) (v : String) : Int :=
  if v ∈ vocabulario vals then ((vocabulario vals).indexOf v : Int) else -1

/-- Decimal rendering of an integer label, as Python's `str`/f-string does. -/
def intStr (i : Int) : String :=
  if i < 0 then "-" ++ Nat.repr i.natAbs else Nat.repr i.toNat

/-! ### Combo index (`clustering_por_combo_critico` keys) -/

/-- The `ATC_VIA_combo` interaction key of a record: the ATC label and the
route label rendered in decimal and joined with an underscore
(`ATC_label + "_" + VÍA ADMINISTRACIÓN_label`). -/
def comboStr (tbl : List Medicamento) (m : Medicamento) : String :=
  intStr (etiqueta (tbl.map (·.atc)) m.atc) ++ "_" ++
    intStr (etiqueta (tbl.map (·.via)) m.via)

/-- The valid subset of the table (`df.filter(pl.col('VALIDO') == 1)`). -/
def validos (tbl : List Medicamento) : List Medicamento :=
  tbl.filter (·.valido)

/-- The keys of `combo_clusters`: the combos observed among valid records.
Only membership in the key set matters to the query path. -/
def comboKeys (tbl : List Medicamento) : List String :=
  (validos tbl).map (comboStr tbl)

/-- `obtener_info_medicamento`: the first row whose `CUM` equals the query. -/
def obtenerInfo (tbl : List Medicamento) (cum : String) : Option Medicamento :=
  tbl.find? (fun m => m.cum == cum)

/-! ### Similarity scorer (`calcular_score_similitud`) -/

def pesoATC : ℚ := 2/5
def pesoVia : ℚ := 3/10
def pesoForma : ℚ := 1/5
def pesoCantidad : ℚ := 1/10

/-- Quantity similarity sub-score (factor 5 of the scorer). -/
def scoreCantidad (q1 q2 : ℚ) : ℚ :=
  if 0 < q1 ∧ 0 < q2 then
    let ratio := min q1 q2 / max q1 q2
    if ratio < 1/2 then 1/10
    else if ratio < 4/5 then 2/5
    else ratio
  else 3/10

/-- Helper for `palabras`: walk the characters, `acc` holding the reversed
current token. -/
def palabrasAux : List Char → List Char → List String
  | [], acc => if acc = [] then [] else [⟨acc.reverse⟩]
  | c :: rest, acc =>
    if c.isWhitespace then
      if acc = [] then palabrasAux rest []
      else ⟨acc.reverse⟩ :: palabrasAux rest []
    else palabrasAux rest (c :: acc)

/-- Whitespace tokenisation with empty tokens dropped, as Python's
`str.split()` with no argument behaves. -/
def palabras (s : String) : List String :=
  palabrasAux s.data []

/-- Starts-with test on character lists. -/
def esPrefijo : List Char → List Char → Bool
  | [], _ => true
  | _ :: _, [] => false
  | a :: as, b :: bs => a == b && esPrefijo as bs

/-- Contiguous-sublist test on character lists. -/
def esInfijo (pal : List Char) : List Char → Bool
  | [] => pal.isEmpty
  | b :: bs => esPrefijo pal (b :: bs) || esInfijo pal bs

/-- Python's `sub in s` contiguous-substring test. -/
def esSubcadena (pal s : String) : Bool :=
  esInfijo pal.data s.data

/-- Active-ingredient bonus: +0.15 on exact equality, else +0.10 when some
whitespace token of length > 3 from the origin occurs inside the candidate,
else 0. -/
def bonusPrincipio (p1 p2 : String) : ℚ :=
  if p1 = p2 then 3/20
  else if (palabras p1).any (fun w => decide (3 < w.length) && esSubcadena w p2) then 1/10
  else 0

/-- `calcular_score_similitud`: the weighted sum of the ATC, route, form and
quantity factors plus the uncapped ingredient bonus. -/
def calcularScore (origen cand : Medicamento) : ℚ :=
  (if origen.atc = cand.atc then 1 else 0) * pesoATC
  + (if origen.via = cand.via then 1 else 0) * pesoVia
  + bonusPrincipio origen.principio cand.principio
  + (if origen.forma = cand.forma then (1 : ℚ) else 1/2) * pesoForma
  + scoreCantidad (origen.cantidad.getD 0) (cand.cantidad.getD 0) * pesoCantidad

/-! ### Rounding (`round(score, 4)`) -/

/-- Round to the nearest integer, halves to even, as Python's `round`. -/
def roundHalfEven (x : ℚ) : ℤ :=
  let f := x.floor
  if x - f < 1/2 then f
  else if 1/2 < x - f then f + 1
  else if f % 2 = 0 then f else f + 1

/-- `round(x, 4)`. -/
def round4 (x : ℚ) : ℚ := (roundHalfEven (x * 10000) : ℚ) / 10000

/-! ### Query result model (`recomendar_homologos`) -/

/-- One entry of the `recomendaciones` list. -/
structure Recomendacion where
  cum : String
  producto : String
  atc : String
  via : String
  principio : String
  forma : String
  cantidad : Option ℚ
  unidad : String
  scoreSimilitud : ℚ
deriving DecidableEq, Repr

/-- Build a recommendation entry from a candidate row and its exact score;
the reported `score_similitud` is the score rounded to 4 decimals. -/
def mkRecomendacion (c : Medicamento) (s : ℚ) : Recomendacion :=
  { cum := c.cum, producto := c.producto, atc := c.atc, via := c.via,
    principio := c.principio, forma := c.forma, cantidad := c.cantidad,
    unidad := c.unidad, scoreSimilitud := round4 s }

/-- The three hard-error branches of `recomendar_homologos`, distinguished in
the code by their message strings. -/
inductive TipoError where
  | notFound
  | noValidCombo
  | noCandidates
deriving DecidableEq, Repr

/-- The `medicamento_origen` summary carried by a success result. -/
structure ResumenOrigen where
  producto : String
  atc : String
  via : String
  principio : String
  esValido : Bool
deriving DecidableEq, Repr

def resumenOrigen (m : Medicamento) : ResumenOrigen :=
  { producto := m.producto, atc := m.atc, via := m.via,
    principio := m.principio, esValido := m.valido }

/-- The structured result of a query: a hard error (whose dict carries an
`error` message and an empty `recomendaciones` list) or a success dict
(origin summary, `encontrado`, `candidatos_evaluados`, the ranked list and
the echoed parameters; no `error` key). -/
inductive Resultado where
  | error (cumOrigen : String) (tipo : TipoError)
  | exito (cumOrigen : String) (origen : ResumenOrigen) (encontrado : Bool)
      (candidatosEvaluados : Nat) (recomendaciones : List Recomendacion)
      (scoreMinimo : ℚ) (nRecomendaciones : Nat)
deriving DecidableEq, Repr

/-- The `recomendaciones` list of a result (empty on every error branch). -/
def recsDe : Resultado → List Recomendacion
  | .error _ _ => []
  | .exito _ _ _ _ recs _ _ => recs

/-- Step 3 of the query: valid rows sharing the origin's ATC and route, the
origin's own `cum` excluded. -/
def candidatos (tbl : List Medicamento) (cumOrigen : String) (origen : Medicamento) :
    List Medicamento :=
  (validos tbl).filter
    (fun c => c.atc == origen.atc && c.via == origen.via && c.cum != cumOrigen)

/-- Steps 4–5: score every candidate and keep, in input order, those whose
exact score reaches `score_minimo`, as recommendation entries. -/
def recsFiltradas (origen : Medicamento) (cands : List Medicamento) (scoreMin : ℚ) :
    List Recomendacion :=
  (cands.filter (fun c => decide (scoreMin ≤ calcularScore origen c))).map
    (fun c => mkRecomendacion c (calcularScore origen c))

/-- Sort key for step 6: higher reported score first; equal reported scores
keep the original position order.  This is the specification of Python's
stable `list.sort(key=score, reverse=True)`. -/
@[reducible] def ordenRec (a b : Nat × Recomendacion) : Prop :=
  b.2.scoreSimilitud < a.2.scoreSimilitud ∨
    (a.2.scoreSimilitud = b.2.scoreSimilitud ∧ a.1 ≤ b.1)

instance : DecidableRel ordenRec := fun a b =>
  inferInstanceAs (Decidable (_ ∨ _))

instance : IsTotal (Nat × Recomendacion) ordenRec where
  total a b := by
    rcases lt_trichotomy a.2.scoreSimilitud b.2.scoreSimilitud with h | h | h
    · exact Or.inr (Or.inl h)
    · rcases Nat.le_total a.1 b.1 with hn | hn
      · exact Or.inl (Or.inr ⟨h, hn⟩)
      · exact Or.inr (Or.inr ⟨h.symm, hn⟩)
    · exact Or.inl (Or.inl h)

instance : IsTrans (Nat × Recomendacion) ordenRec where
  trans a b c hab hbc := by
    rcases hab with hab | ⟨hab, hab'⟩ <;> rcases hbc with hbc | ⟨hbc, hbc'⟩
    · exact Or.inl (hbc.trans hab)
    · exact Or.inl (hbc ▸ hab)
    · exact Or.inl (hab ▸ hbc)
    · exact Or.inr ⟨hab.trans hbc, hab'.trans hbc'⟩

/-- Python's stable descending sort of step 6. -/
def ordenarEstable (l : List Recomendacion) : List Recomendacion :=
  (List.insertionSort ordenRec l.enum).map Prod.snd

/-- `recomendar_homologos(cum, n, score_minimo)` on a trained model whose
reference table is `tbl`. -/
def recomendar (tbl : List Medicamento) (cumOrigen : String) (n : Nat)
    (scoreMin : ℚ) : Resultado :=
  match obtenerInfo tbl cumOrigen with
  | none => .error cumOrigen .notFound
  | some origen =>
    if comboStr tbl origen ∈ comboKeys tbl then
      let cands := candidatos tbl cumOrigen origen
      if cands.isEmpty then .error cumOrigen .noCandidates
      else
        let recs := (ordenarEstable (recsFiltradas origen cands scoreMin)).take n
        .exito cumOrigen (resumenOrigen origen) (!recs.isEmpty) cands.length recs
          scoreMin n
    else .error cumOrigen .noValidCombo


/-! ### Decimal rendering: digit facts and injectivity

The combo key concatenates two decimal label renderings with an
underscore; these lemmas show the rendering uses digit characters only
and is injective, so the key determines the label pair. -/

theorem digitChar_isDigit {k : Nat} (hk : k < 10) :
    (Nat.digitChar k).isDigit = true := by
  interval_cases k <;> decide

theorem digitChar_toNat {k : Nat} (hk : k < 10) :
    (Nat.digitChar k).toNat = 48 + k := by
  interval_cases k <;> decide

theorem toDigitsCore_isDigit :
    ∀ (fuel n : Nat) (ds : List Char), (∀ c ∈ ds, c.isDigit = true) →
      ∀ c ∈ Nat.toDigitsCore 10 fuel n ds, c.isDigit = true := by
  intro fuel
  induction fuel with
  | zero => intro n ds hds; simpa [Nat.toDigitsCore] using hds
  | succ fuel ih =>
    intro n ds hds c hc
    rw [Nat.toDigitsCore] at hc
    by_cases h : n / 10 = 0
    · rw [if_pos h] at hc
      rcases List.mem_cons.mp hc with rfl | hmem
      · exact digitChar_isDigit (Nat.mod_lt _ (by omega))
      · exact hds c hmem
    · rw [if_neg h] at hc
      refine ih (n / 10) (Nat.digitChar (n % 10) :: ds) ?_ c hc
      intro x hx
      rcases List.mem_cons.mp hx with rfl | hmem
      · exact digitChar_isDigit (Nat.mod_lt _ (by omega))
      · exact hds x hmem

theorem repr_isDigit (n : Nat) : ∀ c ∈ (Nat.repr n).data, c.isDigit = true := by
  intro c hc
  exact toDigitsCore_isDigit (n + 1) n [] (by simp) c hc

/-- One step of reading a decimal string left to right. -/
def pasoDecimal (acc : Nat) (c : Char) : Nat := acc * 10 + (c.toNat - 48)

/-- Append the decimal digits of `n` after those already in `acc`. -/
def empujar (acc : Nat) (n : Nat) : Nat :=
  if _h : n < 10 then acc * 10 + n
  else empujar acc (n / 10) * 10 + n % 10
termination_by n
decreasing_by exact Nat.div_lt_self (by omega) (by omega)

theorem empujar_zero (n : Nat) : empujar 0 n = n := by
  induction n using Nat.strong_induction_on with
  | _ n ih =>
    rw [empujar]
    by_cases h : n < 10
    · simp [h]
    · rw [dif_neg h, ih (n / 10) (Nat.div_lt_self (by omega) (by omega))]
      omega

theorem toDigitsCore_foldl :
    ∀ (fuel n : Nat), n < fuel → ∀ (ds : List Char) (acc : Nat),
      (Nat.toDigitsCore 10 fuel n ds).foldl pasoDecimal acc
        = ds.foldl pasoDecimal (empujar acc n) := by
  intro fuel
  induction fuel with
  | zero => omega
  | succ fuel ih =>
    intro n hn ds acc
    rw [Nat.toDigitsCore]
    have hd : ∀ a : Nat, pasoDecimal a (Nat.digitChar (n % 10)) = a * 10 + n % 10 := by
      intro a
      unfold pasoDecimal
      rw [digitChar_toNat (Nat.mod_lt _ (by omega))]
      omega
    by_cases h : n / 10 = 0
    · rw [if_pos h, List.foldl_cons, hd, empujar, dif_pos (by omega)]
      have : n % 10 = n := by omega
      rw [this]
    · rw [if_neg h, ih (n / 10) (by omega), List.foldl_cons, hd]
      conv_rhs => rw [empujar, dif_neg (by omega)]

theorem foldl_repr (n : Nat) : (Nat.repr n).data.foldl pasoDecimal 0 = n := by
  have : (Nat.repr n).data = Nat.toDigitsCore 10 (n + 1) n [] := rfl
  rw [this, toDigitsCore_foldl (n + 1) n (by omega) [] 0]
  simpa using empujar_zero n

theorem natRepr_inj {a b : Nat} (h : Nat.repr a = Nat.repr b) : a = b := by
  have := congrArg String.data h
  calc a = (Nat.repr a).data.foldl pasoDecimal 0 := (foldl_repr a).symm
    _ = (Nat.repr b).data.foldl pasoDecimal 0 := by rw [this]
    _ = b := foldl_repr b

theorem append_sep_inj :
    ∀ (a c : List Char) {b d : List Char}, (∀ x ∈ a, x.isDigit = true) →
      (∀ x ∈ c, x.isDigit = true) →
      a ++ '_' :: b = c ++ '_' :: d → a = c ∧ b = d := by
  intro a
  induction a with
  | nil =>
    intro c b d _ hc h
    cases c with
    | nil => simpa using h
    | cons y ys =>
      exfalso
      have h1 : '_' = y := by simpa using congrArg (fun l => l.headI) h
      have := hc y (by simp)
      rw [← h1] at this
      simp at this
  | cons x xs ih =>
    intro c b d ha hc h
    cases c with
    | nil =>
      exfalso
      have h1 : x = '_' := by simpa using congrArg (fun l => l.headI) h
      have := ha x (by simp)
      rw [h1] at this
      simp at this
    | cons y ys =>
      simp only [List.cons_append, List.cons.injEq] at h
      obtain ⟨rfl, h2⟩ := h
      obtain ⟨h3, h4⟩ := ih ys (fun z hz => ha z (by simp [hz]))
        (fun z hz => hc z (by simp [hz])) h2
      exact ⟨by rw [h3], h4⟩


/-! ### The combo gate: key membership decides exact (ATC, route) matching -/

theorem mem_vocabulario {vals : List String} {v : String} :
    v ∈ vocabulario vals ↔ v ∈ vals := by
  unfold vocabulario
  rw [(List.perm_insertionSort _ _).mem_iff, List.mem_dedup]

theorem etiqueta_of_mem {vals : List String} {v : String} (hv : v ∈ vals) :
    etiqueta vals v = ((vocabulario vals).indexOf v : Int) := by
  unfold etiqueta
  rw [if_pos (mem_vocabulario.mpr hv)]

theorem etiqueta_inj {vals : List String} {v w : String} (hv : v ∈ vals)
    (hw : w ∈ vals) (h : etiqueta vals v = etiqueta vals w) : v = w := by
  rw [etiqueta_of_mem hv, etiqueta_of_mem hw] at h
  have hn : (vocabulario vals).indexOf v = (vocabulario vals).indexOf w := by
    exact_mod_cast h
  exact (List.indexOf_inj (mem_vocabulario.mpr hv) (mem_vocabulario.mpr hw)).mp hn

theorem intStr_natCast (k : Nat) : intStr (k : Int) = Nat.repr k := by
  unfold intStr
  rw [if_neg (by omega), Int.toNat_ofNat]

theorem comboStr_eq_iff {tbl : List Medicamento} {r m : Medicamento}
    (hr : r ∈ tbl) (hm : m ∈ tbl) :
    comboStr tbl r = comboStr tbl m ↔ r.atc = m.atc ∧ r.via = m.via := by
  constructor
  · intro h
    unfold comboStr at h
    have hra : r.atc ∈ tbl.map (·.atc) := List.mem_map_of_mem _ hr
    have hrv : r.via ∈ tbl.map (·.via) := List.mem_map_of_mem _ hr
    have hma : m.atc ∈ tbl.map (·.atc) := List.mem_map_of_mem _ hm
    have hmv : m.via ∈ tbl.map (·.via) := List.mem_map_of_mem _ hm
    rw [etiqueta_of_mem hra, etiqueta_of_mem hrv, etiqueta_of_mem hma,
      etiqueta_of_mem hmv, intStr_natCast, intStr_natCast, intStr_natCast,
      intStr_natCast] at h
    have hdata := congrArg String.data h
    simp only [String.data_append] at hdata
    simp only [List.append_assoc, List.singleton_append] at hdata
    obtain ⟨h1, h2⟩ := append_sep_inj _ _ (repr_isDigit _) (repr_isDigit _) hdata
    have ha : r.atc = m.atc := by
      refine etiqueta_inj hra hma ?_
      rw [etiqueta_of_mem hra, etiqueta_of_mem hma]
      exact_mod_cast natRepr_inj (String.ext h1)
    have hv : r.via = m.via := by
      refine etiqueta_inj hrv hmv ?_
      rw [etiqueta_of_mem hrv, etiqueta_of_mem hmv]
      exact_mod_cast natRepr_inj (String.ext h2)
    exact ⟨ha, hv⟩
  · intro ⟨h1, h2⟩
    unfold comboStr
    rw [h1, h2]

theorem mem_validos {tbl : List Medicamento} {r : Medicamento} :
    r ∈ validos tbl ↔ r ∈ tbl ∧ r.valido = true := by
  unfold validos
  simp [List.mem_filter]

theorem combo_mem_iff {tbl : List Medicamento} {m : Medicamento} (hm : m ∈ tbl) :
    comboStr tbl m ∈ comboKeys tbl ↔
      ∃ r ∈ tbl, r.valido = true ∧ r.atc = m.atc ∧ r.via = m.via := by
  unfold comboKeys
  rw [List.mem_map]
  constructor
  · intro ⟨r, hr, hEq⟩
    obtain ⟨hrt, hrv⟩ := mem_validos.mp hr
    obtain ⟨h1, h2⟩ := (comboStr_eq_iff hrt hm).mp hEq
    exact ⟨r, hrt, hrv, h1, h2⟩
  · intro ⟨r, hrt, hrv, h1, h2⟩
    exact ⟨r, mem_validos.mpr ⟨hrt, hrv⟩, (comboStr_eq_iff hrt hm).mpr ⟨h1, h2⟩⟩


/-! ### Properties of the stable descending sort -/

/-- Strictly increasing original positions. -/
def ordenPos (a b : Nat × Recomendacion) : Prop := a.1 < b.1

instance : IsAntisymm (Nat × Recomendacion) ordenPos where
  antisymm a b h1 h2 := absurd (Nat.lt_trans h1 h2) (lt_irrefl _)

theorem enum_pairwise_pos {l : List Recomendacion} : l.enum.Pairwise ordenPos := by
  have h1 : (l.enum.map Prod.fst).Pairwise (· < ·) := by
    rw [List.enum_eq_enumFrom, List.enumFrom_map_fst]
    exact List.pairwise_lt_range' 0 l.length
  exact (List.pairwise_map.mp h1).imp fun h => h

theorem ordenarEstable_perm (l : List Recomendacion) :
    (ordenarEstable l).Perm l := by
  unfold ordenarEstable
  refine ((List.perm_insertionSort ordenRec l.enum).map Prod.snd).trans ?_
  rw [List.enum_eq_enumFrom, List.enumFrom_map_snd]

theorem ordenarEstable_pairwise (l : List Recomendacion) :
    (ordenarEstable l).Pairwise
      (fun a b => b.scoreSimilitud ≤ a.scoreSimilitud) := by
  unfold ordenarEstable
  refine List.pairwise_map.mpr ?_
  refine (List.sorted_insertionSort ordenRec l.enum).imp ?_
  intro a b hab
  rcases hab with h | ⟨h, _⟩
  · exact le_of_lt h
  · exact le_of_eq h.symm

theorem ordenarEstable_filter (l : List Recomendacion) (s : ℚ) :
    (ordenarEstable l).filter (fun r => r.scoreSimilitud == s)
      = l.filter (fun r => r.scoreSimilitud == s) := by
  unfold ordenarEstable
  have hperm : (List.insertionSort ordenRec l.enum).Perm l.enum :=
    List.perm_insertionSort _ _
  conv_rhs => rw [← List.enumFrom_map_snd 0 l, ← List.enum_eq_enumFrom]
  rw [List.filter_map, List.filter_map]
  congr 1
  have hsorted : (List.insertionSort ordenRec l.enum).Pairwise ordenRec :=
    List.sorted_insertionSort ordenRec l.enum
  have hfsub : List.Sublist
      ((List.insertionSort ordenRec l.enum).filter
        ((fun r => r.scoreSimilitud == s) ∘ Prod.snd))
      (List.insertionSort ordenRec l.enum) := List.filter_sublist _
  have hnodupSorted : ((List.insertionSort ordenRec l.enum).map Prod.fst).Nodup := by
    refine ((hperm.map Prod.fst).symm).nodup ?_
    rw [List.enum_eq_enumFrom, List.enumFrom_map_fst]
    exact List.nodup_range' 0 l.length
  have hnodupF : (((List.insertionSort ordenRec l.enum).filter
      ((fun r => r.scoreSimilitud == s) ∘ Prod.snd)).map Prod.fst).Nodup :=
    List.Nodup.sublist (hfsub.map Prod.fst) hnodupSorted
  have hneF : ((List.insertionSort ordenRec l.enum).filter
      ((fun r => r.scoreSimilitud == s) ∘ Prod.snd)).Pairwise
        (fun a b => a.1 ≠ b.1) := List.pairwise_map.mp hnodupF
  have hrecF : ((List.insertionSort ordenRec l.enum).filter
      ((fun r => r.scoreSimilitud == s) ∘ Prod.snd)).Pairwise ordenRec :=
    List.Pairwise.sublist hfsub hsorted
  have hsort1 : ((List.insertionSort ordenRec l.enum).filter
      ((fun r => r.scoreSimilitud == s) ∘ Prod.snd)).Pairwise ordenPos := by
    refine List.Pairwise.imp_of_mem ?_ (hrecF.and hneF)
    intro a b ha hb hab
    have has : a.2.scoreSimilitud = s := by
      have := (List.mem_filter.mp ha).2
      simpa using this
    have hbs : b.2.scoreSimilitud = s := by
      have := (List.mem_filter.mp hb).2
      simpa using this
    rcases hab.1 with h | ⟨_, h⟩
    · exfalso
      rw [has, hbs] at h
      exact lt_irrefl _ h
    · exact lt_of_le_of_ne h hab.2
  have hsort2 : (l.enum.filter
      ((fun r => r.scoreSimilitud == s) ∘ Prod.snd)).Pairwise ordenPos :=
    List.Pairwise.sublist (List.filter_sublist _) enum_pairwise_pos
  exact List.eq_of_perm_of_sorted (hperm.filter _) hsort1 hsort2


/-! ### Inversion of a successful query -/

theorem mem_recsFiltradas {origen : Medicamento} {cands : List Medicamento}
    {scoreMin : ℚ} {rec : Recomendacion} :
    rec ∈ recsFiltradas origen cands scoreMin ↔
      ∃ c ∈ cands, scoreMin ≤ calcularScore origen c ∧
        rec = mkRecomendacion c (calcularScore origen c) := by
  simp only [recsFiltradas, List.mem_map, List.mem_filter, decide_eq_true_eq]
  constructor
  · rintro ⟨c, ⟨hc, hs⟩, rfl⟩
    exact ⟨c, hc, hs, rfl⟩
  · rintro ⟨c, hc, hs, rfl⟩
    exact ⟨c, ⟨hc, hs⟩, rfl⟩

theorem recomendar_exito_recs {tbl : List Medicamento} {cum : String} {n : Nat}
    {scoreMin : ℚ} {origen : Medicamento} {cum' : String} {o : ResumenOrigen}
    {e : Bool} {k : Nat} {recs : List Recomendacion} {m : ℚ} {n' : Nat}
    (h1 : obtenerInfo tbl cum = some origen)
    (h2 : recomendar tbl cum n scoreMin = .exito cum' o e k recs m n') :
    recs = (ordenarEstable (recsFiltradas origen (candidatos tbl cum origen)
      scoreMin)).take n := by
  unfold recomendar at h2
  rw [h1] at h2
  dsimp only [] at h2
  by_cases hc : comboStr tbl origen ∈ comboKeys tbl
  · rw [if_pos hc] at h2
    by_cases he : (candidatos tbl cum origen).isEmpty
    · simp only [he, if_true] at h2
      cases h2
    · simp only [he, if_false, Bool.false_eq_true] at h2
      have := (Resultado.exito.injEq _ _ _ _ _ _ _ _ _ _ _ _ _ _).mp h2
      exact this.2.2.2.2.1.symm
  · rw [if_neg hc] at h2
    cases h2

theorem recs_mem_inv {tbl : List Medicamento} {cum : String} {n : Nat}
    {scoreMin : ℚ} {rec : Recomendacion}
    (hrec : rec ∈ recsDe (recomendar tbl cum n scoreMin)) :
    ∃ origen, obtenerInfo tbl cum = some origen ∧
      ∃ c ∈ candidatos tbl cum origen, scoreMin ≤ calcularScore origen c ∧
        rec = mkRecomendacion c (calcularScore origen c) := by
  unfold recomendar at hrec
  cases hfind : obtenerInfo tbl cum with
  | none => rw [hfind] at hrec; simp [recsDe] at hrec
  | some origen =>
    rw [hfind] at hrec
    dsimp only [] at hrec
    refine ⟨origen, rfl, ?_⟩
    by_cases hc : comboStr tbl origen ∈ comboKeys tbl
    · rw [if_pos hc] at hrec
      by_cases he : (candidatos tbl cum origen).isEmpty
      · simp [he, recsDe] at hrec
      · simp only [he, if_false, Bool.false_eq_true, recsDe] at hrec
        have h1 : rec ∈ ordenarEstable
            (recsFiltradas origen (candidatos tbl cum origen) scoreMin) :=
          List.mem_of_mem_take hrec
        have h2 : rec ∈ recsFiltradas origen (candidatos tbl cum origen)
            scoreMin := (ordenarEstable_perm _).subset h1
        exact mem_recsFiltradas.mp h2
    · rw [if_neg hc] at hrec
      simp [recsDe] at hrec

/-- C7: the origin medication is excluded from its own candidate set before
scoring, so no returned recommendation carries the queried `cum`. -/
theorem c7_origen_excluido (tbl : List Medicamento) (cum : String) (n : Nat)
    (scoreMin : ℚ) (rec : Recomendacion)
    (hrec : rec ∈ recsDe (recomendar tbl cum n scoreMin)) :
    rec.cum ≠ cum := by
  obtain ⟨origen, _, c, hc, _, rfl⟩ := recs_mem_inv hrec
  have hpred := (List.mem_filter.mp hc).2
  simp only [Bool.and_eq_true, bne_iff_ne, ne_eq, beq_iff_eq] at hpred
  exact hpred.2


/-- C5: a successful query's list is exactly the highest-scoring prefix of
the threshold-filtered candidate set: its length is exactly
`min n |filtered set|` (hence at most `n`), it is ordered by the reported
(4-decimal) score descending, every filtered candidate left out scores no
higher than every one kept, and reported-score ties keep the candidates'
relative input order (Python's stable sort).  Together these pin the list
uniquely: all strictly higher score classes are kept whole, and the
boundary class contributes its input-order prefix. -/
theorem c5_lista_ordenada_truncada (tbl : List Medicamento) (cum : String)
    (n : Nat) (scoreMin : ℚ) (origen : Medicamento) (cum' : String)
    (o : ResumenOrigen) (e : Bool) (k : Nat) (recs : List Recomendacion)
    (m : ℚ) (n' : Nat)
    (h1 : obtenerInfo tbl cum = some origen)
    (h2 : recomendar tbl cum n scoreMin = .exito cum' o e k recs m n') :
    recs.length ≤ n
    ∧ recs.length
        = min n (recsFiltradas origen (candidatos tbl cum origen)
            scoreMin).length
    ∧ recs.Pairwise (fun a b => b.scoreSimilitud ≤ a.scoreSimilitud)
    ∧ (∃ resto, (recs ++ resto).Perm
          (recsFiltradas origen (candidatos tbl cum origen) scoreMin)
        ∧ ∀ b ∈ resto, ∀ a ∈ recs, b.scoreSimilitud ≤ a.scoreSimilitud)
    ∧ (∀ s : ℚ, ∃ resto,
        (recsFiltradas origen (candidatos tbl cum origen) scoreMin).filter
            (fun r => r.scoreSimilitud == s)
          = recs.filter (fun r => r.scoreSimilitud == s) ++ resto) := by
  have hrecs := recomendar_exito_recs h1 h2
  subst hrecs
  refine ⟨List.length_take_le n _, ?_, ?_, ?_, ?_⟩
  · rw [List.length_take, (ordenarEstable_perm _).length_eq]
  · exact List.Pairwise.sublist (List.take_sublist n _)
      (ordenarEstable_pairwise _)
  · refine ⟨(ordenarEstable (recsFiltradas origen (candidatos tbl cum origen)
      scoreMin)).drop n, ?_, ?_⟩
    · rw [List.take_append_drop]
      exact ordenarEstable_perm _
    · have hall := ordenarEstable_pairwise
        (recsFiltradas origen (candidatos tbl cum origen) scoreMin)
      rw [← List.take_append_drop n (ordenarEstable (recsFiltradas origen
        (candidatos tbl cum origen) scoreMin))] at hall
      have h3 := (List.pairwise_append.mp hall).2.2
      exact fun b hb a ha => h3 a ha b hb
  · intro s
    refine ⟨((ordenarEstable (recsFiltradas origen (candidatos tbl cum origen)
      scoreMin)).drop n).filter (fun r => r.scoreSimilitud == s), ?_⟩
    rw [← ordenarEstable_filter]
    conv_lhs => rw [← List.take_append_drop n (ordenarEstable (recsFiltradas
      origen (candidatos tbl cum origen) scoreMin))]
    rw [List.filter_append]

/-- C9 (amended): each reported `score_similitud` is the exact similarity
score rounded to 4 decimals while the threshold compares the exact score;
the ranking is by the rounded value, and candidates whose rounded scores are
equal keep their relative input order. -/
theorem c9_redondeo_orden (tbl : List Medicamento) (cum : String)
    (n : Nat) (scoreMin : ℚ) (origen : Medicamento) (cum' : String)
    (o : ResumenOrigen) (e : Bool) (k : Nat) (recs : List Recomendacion)
    (m : ℚ) (n' : Nat)
    (h1 : obtenerInfo tbl cum = some origen)
    (h2 : recomendar tbl cum n scoreMin = .exito cum' o e k recs m n') :
    (∀ rec ∈ recs, ∃ c ∈ candidatos tbl cum origen,
        scoreMin ≤ calcularScore origen c
        ∧ rec = mkRecomendacion c (calcularScore origen c)
        ∧ rec.scoreSimilitud = round4 (calcularScore origen c))
    ∧ recs.Pairwise (fun a b => b.scoreSimilitud ≤ a.scoreSimilitud)
    ∧ (∀ s : ℚ, ∃ resto,
        (recsFiltradas origen (candidatos tbl cum origen) scoreMin).filter
            (fun r => r.scoreSimilitud == s)
          = recs.filter (fun r => r.scoreSimilitud == s) ++ resto) := by
  have hrecs := recomendar_exito_recs h1 h2
  subst hrecs
  refine ⟨?_, ?_, ?_⟩
  · intro rec hrec
    have hmem : rec ∈ recsFiltradas origen (candidatos tbl cum origen)
        scoreMin := (ordenarEstable_perm _).subset (List.mem_of_mem_take hrec)
    obtain ⟨c, hc, hs, rfl⟩ := mem_recsFiltradas.mp hmem
    exact ⟨c, hc, hs, rfl, rfl⟩
  · exact List.Pairwise.sublist (List.take_sublist n _)
      (ordenarEstable_pairwise _)
  · intro s
    refine ⟨((ordenarEstable (recsFiltradas origen (candidatos tbl cum origen)
      scoreMin)).drop n).filter (fun r => r.scoreSimilitud == s), ?_⟩
    rw [← ordenarEstable_filter]
    conv_lhs => rw [← List.take_append_drop n (ordenarEstable (recsFiltradas
      origen (candidatos tbl cum origen) scoreMin))]
    rw [List.filter_append]


/-! ### Bounds of the similarity score -/

theorem scoreCantidad_bounds (q1 q2 : ℚ) :
    1/10 ≤ scoreCantidad q1 q2 ∧ scoreCantidad q1 q2 ≤ 1 := by
  unfold scoreCantidad
  by_cases h : 0 < q1 ∧ 0 < q2
  · rw [if_pos h]
    have hmaxpos : 0 < max q1 q2 := lt_of_lt_of_le h.1 (le_max_left _ _)
    have hle : min q1 q2 ≤ max q1 q2 := min_le_of_left_le (le_max_left _ _)
    have hratio1 : min q1 q2 / max q1 q2 ≤ 1 := (div_le_one hmaxpos).mpr hle
    dsimp only
    split_ifs with h1 h2
    · norm_num
    · norm_num
    · exact ⟨by linarith [not_lt.mp h2], hratio1⟩
  · rw [if_neg h]
    norm_num

theorem bonusPrincipio_bounds (p1 p2 : String) :
    0 ≤ bonusPrincipio p1 p2 ∧ bonusPrincipio p1 p2 ≤ 3/20 := by
  unfold bonusPrincipio
  split_ifs <;> norm_num

theorem calcularScore_bounds (o c : Medicamento) :
    11/100 ≤ calcularScore o c ∧ calcularScore o c ≤ 23/20 := by
  unfold calcularScore pesoATC pesoVia pesoForma pesoCantidad
  obtain ⟨hq1, hq2⟩ :=
    scoreCantidad_bounds (o.cantidad.getD 0) (c.cantidad.getD 0)
  obtain ⟨hb1, hb2⟩ := bonusPrincipio_bounds o.principio c.principio
  split_ifs <;> constructor <;> linarith

/-- A self-pair attaining the maximal score 1.15. -/
def mEjemploMax : Medicamento :=
  { cum := "M-1", producto := "P", atc := "A", via := "V",
    principio := "Parac", forma := "T", cantidad := some 5, unidad := "mg",
    valido := true }

/-- Origin of a pair attaining the minimal score 0.11. -/
def mEjemploMin1 : Medicamento :=
  { cum := "M-3", producto := "P", atc := "A", via := "V",
    principio := "X", forma := "T", cantidad := some 1, unidad := "mg",
    valido := true }

/-- Candidate of a pair attaining the minimal score 0.11. -/
def mEjemploMin2 : Medicamento :=
  { cum := "M-4", producto := "P", atc := "B", via := "W",
    principio := "Y", forma := "U", cantidad := some 10, unidad := "mg",
    valido := true }

/-- C2 (amended): every score lies in `[0, 1.15]`; `1.15` is attained; the
least attainable value is `0.11`, not `0.0` (the form factor contributes at
least `0.5 * 0.20` and the quantity factor at least `0.1 * 0.10`). -/
theorem c2_cotas_score :
    (∀ o c : Medicamento, 0 ≤ calcularScore o c ∧ calcularScore o c ≤ 23/20)
    ∧ (∃ o c : Medicamento, calcularScore o c = 23/20)
    ∧ (∀ o c : Medicamento, 11/100 ≤ calcularScore o c)
    ∧ (∃ o c : Medicamento, calcularScore o c = 11/100) := by
  refine ⟨fun o c => ⟨?_, (calcularScore_bounds o c).2⟩,
      ⟨mEjemploMax, mEjemploMax, by decide⟩,
      fun o c => (calcularScore_bounds o c).1,
      ⟨mEjemploMin1, mEjemploMin2, by decide⟩⟩
  have := (calcularScore_bounds o c).1
  linarith

/-- C2 counterexample: the claimed minimum `0.0` is not attainable — no pair
of records scores `0`. -/
theorem c2_contraejemplo : ¬ ∃ o c : Medicamento, calcularScore o c = 0 := by
  rintro ⟨o, c, h⟩
  have := (calcularScore_bounds o c).1
  rw [h] at this
  norm_num at this

/-- C6: the quantity sub-score follows the ratio formula when both
quantities are strictly positive, and degrades to the fixed default `0.3`
when either quantity is zero or the field is missing; the embedded scorer is
a total function, so no input aborts the computation. -/
theorem c6_score_cantidad (o c : Medicamento) :
    (0 < o.cantidad.getD 0 → 0 < c.cantidad.getD 0 →
      scoreCantidad (o.cantidad.getD 0) (c.cantidad.getD 0) =
        if min (o.cantidad.getD 0) (c.cantidad.getD 0)
            / max (o.cantidad.getD 0) (c.cantidad.getD 0) < 1/2 then 1/10
        else if min (o.cantidad.getD 0) (c.cantidad.getD 0)
            / max (o.cantidad.getD 0) (c.cantidad.getD 0) < 4/5 then 2/5
        else min (o.cantidad.getD 0) (c.cantidad.getD 0)
            / max (o.cantidad.getD 0) (c.cantidad.getD 0))
    ∧ (o.cantidad = none ∨ o.cantidad.getD 0 = 0 ∨ c.cantidad = none ∨
          c.cantidad.getD 0 = 0 →
        scoreCantidad (o.cantidad.getD 0) (c.cantidad.getD 0) = 3/10) := by
  constructor
  · intro h1 h2
    unfold scoreCantidad
    rw [if_pos ⟨h1, h2⟩]
  · intro h
    unfold scoreCantidad
    rw [if_neg]
    rintro ⟨hp1, hp2⟩
    rcases h with h | h | h | h
    · rw [h] at hp1
      simp at hp1
    · rw [h] at hp1
      exact lt_irrefl _ hp1
    · rw [h] at hp2
      simp at hp2
    · rw [h] at hp2
      exact lt_irrefl _ hp2

/-! ### Hard errors and the success-with-empty-list shape -/

/-- C3: when the origin is found, its combo is indexed and the candidate
filter is non-empty, but every candidate scores strictly below the
threshold, the query returns the success dict with an empty list, carrying
the origin summary and the count of candidates evaluated — a shape distinct
from every hard-error result. -/
theorem c3_exito_vacio (tbl : List Medicamento) (cum : String) (n : Nat)
    (scoreMin : ℚ) (origen : Medicamento)
    (h1 : obtenerInfo tbl cum = some origen)
    (h2 : comboStr tbl origen ∈ comboKeys tbl)
    (h3 : candidatos tbl cum origen ≠ [])
    (h4 : ∀ c ∈ candidatos tbl cum origen, calcularScore origen c < scoreMin) :
    recomendar tbl cum n scoreMin
      = .exito cum (resumenOrigen origen) false
          (candidatos tbl cum origen).length [] scoreMin n := by
  unfold recomendar
  rw [h1]
  dsimp only []
  rw [if_pos h2]
  rw [if_neg (by simpa [List.isEmpty_iff] using h3)]
  have hfil : recsFiltradas origen (candidatos tbl cum origen) scoreMin = [] := by
    unfold recsFiltradas
    rw [List.filter_eq_nil_iff.mpr ?_]
    · rfl
    intro c hc
    simp only [decide_eq_true_eq, not_le]
    exact h4 c hc
  rw [hfil]
  have hord : ordenarEstable ([] : List Recomendacion) = [] := rfl
  rw [hord, List.take_nil]
  rfl

/-- C4: with the origin found, the query returns the NO_VALID_COMBO error
precisely when no record with `valido` true carries exactly the origin's
(ATC, route) string pair — the gate through the label-built combo key is an
exact match on the original string values. -/
theorem c4_combo_gate (tbl : List Medicamento) (cum : String) (n : Nat)
    (scoreMin : ℚ) (origen : Medicamento)
    (h1 : obtenerInfo tbl cum = some origen) :
    recomendar tbl cum n scoreMin = .error cum .noValidCombo
      ↔ ∀ r ∈ tbl, r.valido = true →
          ¬(r.atc = origen.atc ∧ r.via = origen.via) := by
  have hmem : origen ∈ tbl := List.mem_of_find?_eq_some h1
  unfold recomendar
  rw [h1]
  dsimp only []
  by_cases hc : comboStr tbl origen ∈ comboKeys tbl
  · rw [if_pos hc]
    constructor
    · intro h
      exfalso
      by_cases he : (candidatos tbl cum origen).isEmpty
      · rw [if_pos he] at h
        simp at h
      · simp only [he, if_false, Bool.false_eq_true] at h
        cases h
    · intro hnone
      exfalso
      obtain ⟨r, hrt, hrv, hatc, hvia⟩ := (combo_mem_iff hmem).mp hc
      exact hnone r hrt hrv ⟨hatc, hvia⟩
  · rw [if_neg hc]
    constructor
    · intro _ r hrt hrv hcontra
      exact hc ((combo_mem_iff hmem).mpr ⟨r, hrt, hrv, hcontra.1, hcontra.2⟩)
    · intro _
      rfl

/-- C10: a valid origin record is itself a member of the valid subset, so
its combo key is always indexed and the query never fails with
NO_VALID_COMBO — it reaches at least the candidate-filter step. -/
theorem c10_origen_valido_avanza (tbl : List Medicamento) (cum : String)
    (n : Nat) (scoreMin : ℚ) (origen : Medicamento)
    (h1 : obtenerInfo tbl cum = some origen)
    (h2 : origen.valido = true) :
    recomendar tbl cum n scoreMin = .error cum .noCandidates
    ∨ ∃ e k recs, recomendar tbl cum n scoreMin
        = .exito cum (resumenOrigen origen) e k recs scoreMin n := by
  have hmem : origen ∈ tbl := List.mem_of_find?_eq_some h1
  have hc : comboStr tbl origen ∈ comboKeys tbl :=
    (combo_mem_iff hmem).mpr ⟨origen, hmem, h2, rfl, rfl⟩
  unfold recomendar
  rw [h1]
  dsimp only []
  rw [if_pos hc]
  by_cases he : (candidatos tbl cum origen).isEmpty
  · rw [if_pos he]
    exact Or.inl rfl
  · rw [if_neg he]
    exact Or.inr ⟨_, _, _, rfl⟩

/-! ### The label map is a sorted bijection (C8) -/

theorem vocabulario_nodup (vals : List String) : (vocabulario vals).Nodup :=
  (List.perm_insertionSort _ _).symm.nodup (List.nodup_dedup vals)

theorem vocabulario_sorted_le (vals : List String) :
    (vocabulario vals).Sorted (· ≤ ·) :=
  List.sorted_insertionSort _ _

theorem vocabulario_sorted_lt (vals : List String) :
    (vocabulario vals).Sorted (· < ·) :=
  ((vocabulario_sorted_le vals).and (vocabulario_nodup vals)).imp
    fun h => lt_of_le_of_ne h.1 h.2

/-- C8: for each critical field the label map built over ALL records is a
bijection between the distinct occurring values and the ids `0..k-1`,
assigned in ascending lexicographic order from `0`; decoding an id through
the sorted vocabulary recovers the original value. -/
theorem c8_biyeccion_etiquetas (vals : List String) :
    (vocabulario vals).Sorted (· < ·)
    ∧ (∀ v, v ∈ vocabulario vals ↔ v ∈ vals)
    ∧ (∀ v ∈ vals, ∃ h : (vocabulario vals).indexOf v < (vocabulario vals).length,
        etiqueta vals v = ((vocabulario vals).indexOf v : Int)
        ∧ (vocabulario vals).get ⟨(vocabulario vals).indexOf v, h⟩ = v)
    ∧ (∀ v ∈ vals, ∀ w ∈ vals, etiqueta vals v = etiqueta vals w → v = w)
    ∧ (∀ v ∈ vals, ∀ w ∈ vals, v < w → etiqueta vals v < etiqueta vals w)
    ∧ (∀ i : Nat, i < (vocabulario vals).length →
        ∃ v ∈ vals, etiqueta vals v = (i : Int)) := by
  refine ⟨vocabulario_sorted_lt vals, fun v => mem_vocabulario, ?_, ?_, ?_, ?_⟩
  · intro v hv
    refine ⟨List.indexOf_lt_length.mpr (mem_vocabulario.mpr hv),
      etiqueta_of_mem hv, List.indexOf_get _⟩
  · intro v hv w hw h
    exact etiqueta_inj hv hw h
  · intro v hv w hw hlt
    rw [etiqueta_of_mem hv, etiqueta_of_mem hw]
    have hvm := mem_vocabulario.mpr hv
    have hwm := mem_vocabulario.mpr hw
    have hneq : (vocabulario vals).indexOf v ≠ (vocabulario vals).indexOf w := by
      intro hEq
      exact absurd ((List.indexOf_inj hvm hwm).mp hEq) (ne_of_lt hlt)
    have hmono := (vocabulario_sorted_lt vals).get_strictMono
    by_contra hcon
    push_neg at hcon
    have hle : (vocabulario vals).indexOf w ≤ (vocabulario vals).indexOf v := by
      exact_mod_cast hcon
    have hwv : w ≤ v := by
      have h1 := hmono.monotone
        (show (⟨(vocabulario vals).indexOf w, List.indexOf_lt_length.mpr hwm⟩ :
          Fin (vocabulario vals).length)
          ≤ ⟨(vocabulario vals).indexOf v, List.indexOf_lt_length.mpr hvm⟩ from hle)
      rwa [List.indexOf_get, List.indexOf_get] at h1
    exact absurd hlt (not_lt.mpr hwv)
  · intro i hi
    refine ⟨(vocabulario vals).get ⟨i, hi⟩,
      mem_vocabulario.mp (List.get_mem _ _ hi), ?_⟩
    rw [etiqueta_of_mem (mem_vocabulario.mp (List.get_mem _ _ hi))]
    rw [List.get_indexOf (vocabulario_nodup vals)]


/-! ### Concrete scenarios -/

/-- Record A-1 of the spec's scenario. -/
def A1 : Medicamento :=
  { cum := "A-1", producto := "ProdA1", atc := "N02BE01", via := "Oral",
    principio := "Paracetamol", forma := "Tableta", cantidad := some 500,
    unidad := "mg", valido := true }

/-- Record A-2: the attributes of A-1 under a different `cum`. -/
def A2 : Medicamento :=
  { A1 with cum := "A-2", producto := "ProdA2" }

/-- Record B-1: the invalid origin of the spec's scenario. -/
def B1 : Medicamento :=
  { cum := "B-1", producto := "ProdB1", atc := "N02BE01", via := "Oral",
    principio := "Acetaminofen", forma := "Jarabe", cantidad := some 120,
    unidad := "ml", valido := false }

/-- The spec's three-record reference table. -/
def tablaEjemplo : List Medicamento := [A1, A2, B1]

/-- A record whose CANTIDAD field is missing. -/
def sinCantidad : Medicamento :=
  { cum := "S-1", producto := "P", atc := "A", via := "V",
    principio := "Z", forma := "T", cantidad := none, unidad := "mg",
    valido := true }

/-- Invalid origin for the rounding scenario. -/
def O9 : Medicamento :=
  { cum := "O-9", producto := "P", atc := "A", via := "V",
    principio := "Parac", forma := "T", cantidad := some 10000,
    unidad := "mg", valido := false }

/-- First-listed candidate: exact score 1.14004 against O-9. -/
def X9 : Medicamento :=
  { cum := "X-9", producto := "P", atc := "A", via := "V",
    principio := "Parac", forma := "T", cantidad := some 9004,
    unidad := "mg", valido := true }

/-- Second-listed candidate: exact score 1.14006 against O-9. -/
def Y9 : Medicamento :=
  { cum := "Y-9", producto := "P", atc := "A", via := "V",
    principio := "Parac", forma := "T", cantidad := some 9006,
    unidad := "mg", valido := true }

/-- Table for the rounding scenario: X-9 precedes Y-9. -/
def tabla9 : List Medicamento := [X9, Y9, O9]

/-- C1: on the spec's scenario table, recommend("B-1", n=2, score_minimum=0.5)
succeeds and returns both A-1 and A-2, each with reported score
0.81 = 0.40 + 0.30 + 0 + 0.5*0.20 + 0.1*0.10. -/
theorem c1_escenario_espec :
    recomendar tablaEjemplo "B-1" 2 (1/2)
      = .exito "B-1" (resumenOrigen B1) true 2
          [mkRecomendacion A1 (81/100), mkRecomendacion A2 (81/100)] (1/2) 2
    ∧ calcularScore B1 A1 = 2/5 + 3/10 + 0 + (1/2) * (1/5) + (1/10) * (1/10)
    ∧ calcularScore B1 A2 = 81/100
    ∧ (mkRecomendacion A1 (81/100)).cum = "A-1"
    ∧ (mkRecomendacion A2 (81/100)).cum = "A-2"
    ∧ (mkRecomendacion A1 (81/100)).scoreSimilitud = 81/100
    ∧ (mkRecomendacion A2 (81/100)).scoreSimilitud = 81/100 := by
  decide

/-- C3 witness: with threshold 0.9 both candidates (score 0.81) fall short
and the query returns the empty-success shape. -/
theorem c3_testigo :
    (∀ c ∈ candidatos tablaEjemplo "B-1" B1, calcularScore B1 c < 9/10)
    ∧ recomendar tablaEjemplo "B-1" 5 (9/10)
        = .exito "B-1" (resumenOrigen B1) false
            (candidatos tablaEjemplo "B-1" B1).length [] (9/10) 5 :=
  ⟨by decide, c3_exito_vacio tablaEjemplo "B-1" 5 (9/10) B1 (by decide)
    (by decide) (by decide) (by decide)⟩

/-- C4 witness: on a table whose only record is the invalid B-1, the query
for B-1 returns NO_VALID_COMBO. -/
theorem c4_testigo :
    obtenerInfo [B1] "B-1" = some B1
    ∧ recomendar [B1] "B-1" 5 (1/2) = .error "B-1" .noValidCombo :=
  ⟨by decide,
    (c4_combo_gate [B1] "B-1" 5 (1/2) B1 (by decide)).mpr (by decide)⟩

/-- C5 witness: the scenario query returns a list of length at most 2 whose
length is exactly the minimum of n = 2 and the filtered-set size, sorted by
reported score descending. -/
theorem c5_testigo :
    [mkRecomendacion A1 (81/100), mkRecomendacion A2 (81/100)].length ≤ 2
    ∧ [mkRecomendacion A1 (81/100), mkRecomendacion A2 (81/100)].length
        = min 2 (recsFiltradas B1 (candidatos tablaEjemplo "B-1" B1)
            (1/2)).length
    ∧ [mkRecomendacion A1 (81/100), mkRecomendacion A2 (81/100)].Pairwise
        (fun a b => b.scoreSimilitud ≤ a.scoreSimilitud) :=
  ⟨(c5_lista_ordenada_truncada tablaEjemplo "B-1" 2 (1/2) B1 "B-1"
      (resumenOrigen B1) true 2
      [mkRecomendacion A1 (81/100), mkRecomendacion A2 (81/100)] (1/2) 2
      (by decide) (by decide)).1,
   (c5_lista_ordenada_truncada tablaEjemplo "B-1" 2 (1/2) B1 "B-1"
      (resumenOrigen B1) true 2
      [mkRecomendacion A1 (81/100), mkRecomendacion A2 (81/100)] (1/2) 2
      (by decide) (by decide)).2.1,
   (c5_lista_ordenada_truncada tablaEjemplo "B-1" 2 (1/2) B1 "B-1"
      (resumenOrigen B1) true 2
      [mkRecomendacion A1 (81/100), mkRecomendacion A2 (81/100)] (1/2) 2
      (by decide) (by decide)).2.2.1⟩

/-- C6 witness: 120 vs 500 follows the ratio formula; a missing quantity
falls back to the 0.3 default. -/
theorem c6_testigo :
    scoreCantidad (B1.cantidad.getD 0) (A1.cantidad.getD 0)
      = (if min (B1.cantidad.getD 0) (A1.cantidad.getD 0)
            / max (B1.cantidad.getD 0) (A1.cantidad.getD 0) < 1/2 then 1/10
         else if min (B1.cantidad.getD 0) (A1.cantidad.getD 0)
            / max (B1.cantidad.getD 0) (A1.cantidad.getD 0) < 4/5 then 2/5
         else min (B1.cantidad.getD 0) (A1.cantidad.getD 0)
            / max (B1.cantidad.getD 0) (A1.cantidad.getD 0))
    ∧ scoreCantidad (sinCantidad.cantidad.getD 0) (A1.cantidad.getD 0)
        = 3/10 :=
  ⟨(c6_score_cantidad B1 A1).1 (by decide) (by decide),
   (c6_score_cantidad sinCantidad A1).2 (Or.inl rfl)⟩

/-- C7 witness: A-1 appears in the scenario result and its cum differs from
the queried B-1. -/
theorem c7_testigo :
    mkRecomendacion A1 (81/100)
      ∈ recsDe (recomendar tablaEjemplo "B-1" 2 (1/2))
    ∧ (mkRecomendacion A1 (81/100)).cum ≠ "B-1" :=
  ⟨by decide,
    c7_origen_excluido tablaEjemplo "B-1" 2 (1/2) (mkRecomendacion A1 (81/100))
      (by decide)⟩

/-- C8 witness: on values ["b", "a", "b"] the vocabulary is non-empty and
id 0 is taken by some occurring value. -/
theorem c8_testigo :
    0 < (vocabulario ["b", "a", "b"]).length
    ∧ ∃ v ∈ ["b", "a", "b"], etiqueta ["b", "a", "b"] v = (0 : Int) := by
  have hlen : (vocabulario ["b", "a", "b"]).length = 2 := by
    unfold vocabulario
    rw [(List.perm_insertionSort _ _).length_eq]
    decide
  exact ⟨by omega,
    (c8_biyeccion_etiquetas ["b", "a", "b"]).2.2.2.2.2 0 (by omega)⟩

/-- C9 witness: on the scenario query every reported score is the rounded
exact score and the list is sorted by the reported value. -/
theorem c9_testigo :
    [mkRecomendacion A1 (81/100), mkRecomendacion A2 (81/100)].Pairwise
      (fun a b => b.scoreSimilitud ≤ a.scoreSimilitud)
    ∧ (mkRecomendacion A1 (81/100)).scoreSimilitud
        = round4 (calcularScore B1 A1) :=
  ⟨(c9_redondeo_orden tablaEjemplo "B-1" 2 (1/2) B1 "B-1" (resumenOrigen B1)
      true 2 [mkRecomendacion A1 (81/100), mkRecomendacion A2 (81/100)]
      (1/2) 2 (by decide) (by decide)).2.1,
   by decide⟩

/-- C9 counterexample: X-9 and Y-9 have exact scores 1.14004 and 1.14006,
closer together than the 4-decimal resolution, yet the result lists Y-9
before X-9 — the reverse of their input order — because the ranking uses
the rounded values 1.1400 and 1.1401. -/
theorem c9_contraejemplo :
    tabla9 = [X9, Y9, O9]
    ∧ calcularScore O9 X9 = 114004/100000
    ∧ calcularScore O9 Y9 = 114006/100000
    ∧ calcularScore O9 Y9 - calcularScore O9 X9 < 1/10000
    ∧ (recsDe (recomendar tabla9 "O-9" 5 (1/2))).map (fun r => r.cum)
        = ["Y-9", "X-9"] := by
  decide

/-- C10 witness: querying the valid A-1 on the scenario table does not fail
with NO_VALID_COMBO. -/
theorem c10_testigo :
    recomendar tablaEjemplo "A-1" 5 (1/2) = .error "A-1" .noCandidates
    ∨ ∃ e k recs, recomendar tablaEjemplo "A-1" 5 (1/2)
        = .exito "A-1" (resumenOrigen A1) e k recs (1/2) 5 :=
  c10_origen_valido_avanza tablaEjemplo "A-1" 5 (1/2) A1 (by decide)
    (by decide)

end IAMed
